import Mathlib

/-!
Verification development for the keg repository's state/catalog
synchronization core: the unified brew package-state cache
(`internal/brew`), the catalog store (`internal/store`), the light-index
builder (`internal/index/builder.go`) and the refresh scheduler
(`internal/scheduler/scheduler.go`).

Modelling conventions:
- Go `time.Time` values are natural numbers (instants); the Go zero time
  is `0`. Durations are natural numbers as well.
- Go maps are modelled as functions `String → Option _`, matching Go map
  lookup/insert/delete semantics exactly (no iteration-order artifacts).
- External effects (the brew subprocess runner, the HTTP client) are
  passed in as explicit environments of scripted results.
- Disk persistence of the unified cache always succeeds in the model
  (`saveToDiskLocked` is the identity on the modelled state); the catalog
  store's disk is part of the modelled state.
-/

namespace Keg

namespace Brew

/-- Complete state of a single package, mirroring `PackageState` in
`internal/brew`. `FetchedAt` is a natural-number instant. -/
structure PackageState where
  installed : Bool
  installedVersion : String
  latestVersion : String
  outdated : Bool
  fetchedAt : Nat
deriving DecidableEq, Repr

/-- Go's zero value of `PackageState`. -/
def PackageState.zero : PackageState :=
  { installed := false, installedVersion := "", latestVersion := "", outdated := false,
    fetchedAt := 0 }

/-- Mirrors `brew.PackageInfo` (name plus version pair). -/
structure PackageInfo where
  name : String
  installedVersion : String
  latestVersion : String
deriving DecidableEq, Repr

/-- One record of `brew outdated --json=v2` (`outdatedFormula`). -/
structure OutdatedFormula where
  name : String
  installedVersions : List String
  currentVersion : String
deriving DecidableEq, Repr

/-- Mirrors `brewOutdatedJSON` (the casks list is unused by the cache). -/
structure BrewOutdatedJSON where
  formulae : List OutdatedFormula
deriving DecidableEq, Repr

/-- The unified cache (`UnifiedCache` in `internal/brew`): snapshot
timestamp plus per-package states. The Go map is a function map; the
runner and cache path are replaced by explicit environments at call
sites. -/
structure UnifiedCache where
  lastUpdated : Nat
  packages : String → Option PackageState
  ttl : Nat

/-- Default TTL of the unified cache (1 hour, in seconds). -/
def defaultTTL : Nat := 3600

/-- Mirrors `maxBatchSize` in `internal/brew`. -/
def maxBatchSize : Nat := 50

/-- Mirrors `UnifiedCache.needsRefreshLocked`: stale when never updated or
older than the TTL. -/
def needsRefresh (c : UnifiedCache) (now : Nat) : Bool :=
  c.lastUpdated == 0 || now - c.lastUpdated > c.ttl

/-- Mirrors `UnifiedCache.GetState`: pure lookup; the Go `(pkg, ok)` pair
with `pkg` the zero value when absent. -/
def GetState (c : UnifiedCache) (name : String) : PackageState × Bool :=
  match c.packages name with
  | some p => (p, true)
  | none => (PackageState.zero, false)

/-- Mirrors `UnifiedCache.GetInstalledSet`: the set of installed names,
as its membership function. -/
def GetInstalledSet (c : UnifiedCache) : String → Bool :=
  fun name =>
    match c.packages name with
    | some p => p.installed
    | none => false

/-- Mirrors `UnifiedCache.GetOutdatedMap`: the map restricted to entries
that are both outdated and installed. -/
def GetOutdatedMap (c : UnifiedCache) : String → Option PackageInfo :=
  fun name =>
    match c.packages name with
    | some p =>
        if p.outdated && p.installed then
          some { name := name, installedVersion := p.installedVersion,
                 latestVersion := p.latestVersion }
        else none
    | none => none

/-- Results of the two external brew queries a `Refresh` performs. -/
structure RefreshEnv where
  installedResult : Except String (List String)
  outdatedResult : Except String BrewOutdatedJSON

/-- Step 3 of `UnifiedCache.Refresh`: the outdated map built from the
`brew outdated` payload (records with no installed versions are skipped;
later duplicates overwrite earlier ones, as in the Go map insert loop). -/
def buildOutdatedMap (fs : List OutdatedFormula) : String → Option PackageInfo :=
  fs.foldl
    (fun m f =>
      match f.installedVersions with
      | [] => m
      | v :: _ =>
          fun n =>
            if n = f.name then
              some { name := f.name, installedVersion := v,
                     latestVersion := f.currentVersion }
            else m n)
    (fun _ => none)

/-- Step 4 of `UnifiedCache.Refresh`: the new state of one installed
package (outdated info if present, otherwise previous version fields are
kept). -/
def refreshedState (c : UnifiedCache) (om : String → Option PackageInfo) (now : Nat)
    (name : String) : PackageState :=
  match om name with
  | some info =>
      { installed := true, installedVersion := info.installedVersion,
        latestVersion := info.latestVersion, outdated := true, fetchedAt := now }
  | none =>
      match c.packages name with
      | some old =>
          { installed := true, installedVersion := old.installedVersion,
            latestVersion := old.latestVersion, outdated := false, fetchedAt := now }
      | none =>
          { installed := true, installedVersion := "", latestVersion := "",
            outdated := false, fetchedAt := now }

/-- Mirrors `UnifiedCache.Refresh`: TTL gate, the installed query
(fatal on failure), the outdated query (non-fatal: an empty payload is
substituted), then a full copy-then-swap rebuild of the package map. -/
def Refresh (c : UnifiedCache) (force : Bool) (now : Nat) (env : RefreshEnv) :
    Except String UnifiedCache :=
  if !force && !needsRefresh c now then .ok c
  else
    match env.installedResult with
    | .error e => .error ("failed to fetch installed packages: " ++ e)
    | .ok installed =>
        let outdated :=
          match env.outdatedResult with
          | .error _ => BrewOutdatedJSON.mk []
          | .ok o => o
        let om := buildOutdatedMap outdated.formulae
        .ok { c with
              lastUpdated := now,
              packages := fun name =>
                if name ∈ installed then some (refreshedState c om now name) else none }

/-- The cache after the silent refresh attempt in `IsInstalled`
(`_ = c.Refresh(ctx, false)`): the refreshed cache on success, the
unchanged cache when the refresh failed. -/
def refreshOrKeep (c : UnifiedCache) (now : Nat) (env : RefreshEnv) : UnifiedCache :=
  match Refresh c false now env with
  | .ok c2 => c2
  | .error _ => c

/-- Mirrors `UnifiedCache.IsInstalled`: lazily refreshes when the
snapshot is stale (ignoring any refresh error), then answers from the
(possibly updated) snapshot. Returns the answer and the cache state
after the call. -/
def IsInstalled (c : UnifiedCache) (name : String) (now : Nat) (env : RefreshEnv) :
    Bool × UnifiedCache :=
  let c2 := if needsRefresh c now then refreshOrKeep c now env else c
  (match c2.packages name with
   | some p => p.installed
   | none => false, c2)

/-- Results of the chunked `brew info` queries used by
`RefreshVersions`; keyed by the chunk of names queried. The Go map of
results is modelled as the list of its entries. -/
structure VersionsEnv where
  fetch : List String → Except String (List PackageInfo)

/-- The dedupe loop of `UnifiedCache.RefreshVersions` (keeps first
occurrences, preserving order). -/
def dedupeFirst (seen : List String) : List String → List String
  | [] => []
  | n :: rest =>
      if n ∈ seen then dedupeFirst seen rest
      else n :: dedupeFirst (n :: seen) rest

/-- Recursion behind `chunkStrings` for a fixed positive chunk size. -/
def chunkGo (sz : Nat) : List String → List (List String)
  | [] => []
  | x :: xs => (x :: xs.take (sz - 1)) :: chunkGo sz (xs.drop (sz - 1))
termination_by l => l.length
decreasing_by simp [List.length_drop]; omega

/-- Mirrors `chunkStrings` in `internal/brew` (a non-positive size is
promoted to 1). -/
def chunkStrings (items : List String) (size : Nat) : List (List String) :=
  chunkGo (if size = 0 then 1 else size) items

/-- The per-record update loop body of `UnifiedCache.RefreshVersions`:
overwrites version fields, recomputes `Installed` from the fetched
installed version, and recomputes `Outdated` only when both versions are
nonempty (otherwise the previous flag survives). -/
def applyVersionInfo (now : Nat) (pkgs : String → Option PackageState)
    (info : PackageInfo) : String → Option PackageState :=
  let prev := (pkgs info.name).getD { PackageState.zero with fetchedAt := now }
  let newOutdated :=
    if (info.installedVersion != "") && (info.latestVersion != "") then
      info.installedVersion != info.latestVersion
    else prev.outdated
  let st : PackageState :=
    { installed := info.installedVersion != "",
      installedVersion := info.installedVersion,
      latestVersion := info.latestVersion,
      outdated := newOutdated,
      fetchedAt := now }
  fun n => if n = info.name then some st else pkgs n

/-- One iteration of the chunk loop of `UnifiedCache.RefreshVersions`:
a failed chunk query is skipped, a successful one has each of its
records applied to the package map. -/
def applyChunk (now : Nat) (env : VersionsEnv)
    (pkgs : String → Option PackageState) (chunk : List String) :
    String → Option PackageState :=
  match env.fetch chunk with
  | .error _ => pkgs
  | .ok infos => infos.foldl (applyVersionInfo now) pkgs

/-- Mirrors `UnifiedCache.RefreshVersions`: dedupe, chunk, fetch each
chunk (a failed chunk is skipped), and fold the fetched records into the
package map. -/
def RefreshVersions (c : UnifiedCache) (names : List String) (now : Nat)
    (env : VersionsEnv) : UnifiedCache :=
  if names.isEmpty then c
  else
    let unique := dedupeFirst [] names
    let chunks := chunkStrings unique maxBatchSize
    { c with packages := chunks.foldl (applyChunk now env) c.packages }

/-- Mirrors `UnifiedCache.Invalidate`: with names, deletes those
entries; with none, resets `LastUpdated` to the zero time. -/
def Invalidate (c : UnifiedCache) (names : List String) : UnifiedCache :=
  if names.isEmpty then { c with lastUpdated := 0 }
  else { c with packages := fun n => if n ∈ names then none else c.packages n }

/-- Mirrors `UnifiedCache.MarkInstalled`: overwrites the entry with an
installed, up-to-date state at the given version. -/
def MarkInstalled (c : UnifiedCache) (name version : String) (now : Nat) : UnifiedCache :=
  { c with
    packages := fun n =>
      if n = name then
        some { installed := true, installedVersion := version, latestVersion := version,
               outdated := false, fetchedAt := now }
      else c.packages n }

/-- Mirrors `UnifiedCache.MarkUninstalled`: deletes the entry. -/
def MarkUninstalled (c : UnifiedCache) (name : String) : UnifiedCache :=
  { c with packages := fun n => if n = name then none else c.packages n }

/-- Mirrors `UnifiedCache.MarkUpgraded`: updates version fields and
clears `Outdated` on the existing entry (the Go zero value when absent),
leaving the `Installed` flag as it was. -/
def MarkUpgraded (c : UnifiedCache) (name newVersion : String) (now : Nat) : UnifiedCache :=
  let prev := (c.packages name).getD PackageState.zero
  { c with
    packages := fun n =>
      if n = name then
        some { prev with
                 installedVersion := newVersion
                 latestVersion := newVersion
                 outdated := false
                 fetchedAt := now }
      else c.packages n }

/-- The spec's per-entry invariant on a package map: an outdated entry
is installed. -/
def PkgsInv (pkgs : String → Option PackageState) : Prop :=
  ∀ name st, pkgs name = some st → st.outdated = true → st.installed = true

/-- The spec's per-entry invariant: an outdated entry is installed. -/
def OutdatedImpliesInstalled (c : UnifiedCache) : Prop :=
  PkgsInv c.packages

/-- A fresh cache with no entries (snapshot updated at instant 100). -/
def emptyCache : UnifiedCache :=
  { lastUpdated := 100, packages := fun _ => none, ttl := defaultTTL }

/-- A cache holding one installed, outdated entry for `foo`. -/
def fooOutdatedCache : UnifiedCache :=
  { lastUpdated := 5,
    packages := fun n =>
      if n = "foo" then
        some { installed := true, installedVersion := "1.0", latestVersion := "2.0",
               outdated := true, fetchedAt := 0 }
      else none,
    ttl := defaultTTL }

/-- A version-query environment whose every answer reports `foo` with an
empty installed version (brew info showing the package not installed). -/
def fooGoneVersionsEnv : VersionsEnv :=
  { fetch := fun _ =>
      .ok [{ name := "foo", installedVersion := "", latestVersion := "2.0" }] }

/-- A never-refreshed cache with no entries. -/
def staleEmptyCache : UnifiedCache :=
  { lastUpdated := 0, packages := fun _ => none, ttl := defaultTTL }

/-- A refresh environment whose installed query reports exactly `foo`
and whose outdated query reports nothing outdated. -/
def fooInstalledEnv : RefreshEnv :=
  { installedResult := .ok ["foo"], outdatedResult := .ok (BrewOutdatedJSON.mk []) }

/-- A refresh environment whose installed query reports exactly `foo`
and whose outdated query fails. -/
def fooInstalledOutdatedFailEnv : RefreshEnv :=
  { installedResult := .ok ["foo"], outdatedResult := .error "brew outdated exploded" }

end Brew

namespace Index

/-- The light item projected into the index, mirroring `ItemLight` in
`internal/index/types.go`. -/
structure ItemLight where
  name : String
  fullName : String
  tap : String
  version : String
  desc : String
  homepage : String
  license : String
  deprecated : Bool
  deprecationDate : String
  deprecationReason : String
  replacement : String
  disabled : Bool
  disableDate : String
  disableReason : String
  kegOnly : Bool
  hasBottle : Bool
  aliases : List String
  oldNames : List String
  depCount : Nat
  outdated : Bool
  pinned : Bool
deriving DecidableEq, Repr

/-- The Homebrew formula subset the builder decodes (`formula` in
`internal/index/types.go`); the bottle files map is reduced to its
size, which is all `toItemLight` reads from it. -/
structure Formula where
  name : String
  fullName : String
  aliases : List String
  oldNames : List String
  desc : String
  tap : String
  homepage : String
  license : String
  versionsStable : String
  deprecated : Bool
  deprecationDate : String
  deprecationReason : String
  deprecationReplacementFormula : String
  deprecationReplacementCask : String
  disabled : Bool
  disableDate : String
  disableReason : String
  kegOnly : Bool
  bottleStableFiles : Nat
  dependencies : List String
  outdated : Bool
  pinned : Bool
deriving DecidableEq, Repr

/-- Mirrors `toItemLight` (the search-text string built at its top is
dead code in the source — never stored — and is omitted). -/
def toItemLight (f : Formula) : ItemLight :=
  { name := f.name
    fullName := f.fullName
    tap := f.tap
    version := f.versionsStable
    desc := f.desc
    homepage := f.homepage
    license := f.license
    deprecated := f.deprecated
    deprecationDate := f.deprecationDate
    deprecationReason := f.deprecationReason
    replacement :=
      if f.deprecationReplacementFormula != "" then f.deprecationReplacementFormula
      else if f.deprecationReplacementCask != "" then f.deprecationReplacementCask
      else ""
    disabled := f.disabled
    disableDate := f.disableDate
    disableReason := f.disableReason
    kegOnly := f.kegOnly
    hasBottle := f.bottleStableFiles != 0
    aliases := f.aliases
    oldNames := f.oldNames
    depCount := f.dependencies.length
    outdated := f.outdated
    pinned := f.pinned }

/-- The upstream stream as the builder's JSON decoder consumes it
(gunzip already applied): either the top-level token is not an array,
or it is an array of records, each of which decodes to a formula or
fails to decode. -/
inductive IndexInput where
  | notArray
  | arr (records : List (Option Formula))

/-- Result of the build, mirroring `index.Result`. The compressed
payload bytes and their hash are produced by `encodeIndexGZ` and
`sha256Hex` below. -/
structure Result where
  gzip : List Nat
  generated : Nat
  count : Nat
  sha256Hex : String
  sizeBytes : Nat
deriving DecidableEq, Repr

/-- Byte encoding of one item: stands in for its streamed JSON
encoding; the claims treat the payload bytes opaquely. -/
def encodeItem (it : ItemLight) : List Nat :=
  (it.name.data.map Char.toNat) ++ [0] ++ (it.version.data.map Char.toNat) ++ [1]

/-- Byte encoding of the whole light-index payload: stands in for the
gzip-compressed hand-assembled JSON wrapper (schema, generation time,
items) the builder emits. -/
def encodeIndexGZ (generated : Nat) (items : List ItemLight) : List Nat :=
  [123, generated % 256] ++ items.foldr (fun it acc => encodeItem it ++ acc) [] ++ [125]

/-- Content hash of the payload bytes: stands in for the SHA-256 hex
digest; the claims treat it opaquely. -/
def sha256Hex (bytes : List Nat) : String :=
  toString (bytes.foldl (fun h b => (h * 31 + b) % 1000000007) 7)

/-- The record-decoding loop of `BuildLightIndex`: records in order,
any record that fails to decode aborts the build. -/
def buildItems : List (Option Formula) → Except String (List ItemLight)
  | [] => .ok []
  | none :: _ => .error "decode"
  | some f :: rest =>
      match buildItems rest with
      | .error e => .error e
      | .ok its => .ok (toItemLight f :: its)

/-- Mirrors `BuildLightIndex` (context cancellation and reader close
errors aside): a non-array top level fails with `want array`; the first
malformed record aborts the whole build, whose only product is the
error — no partial payload escapes; on success the payload bytes,
generation instant, item count, content hash and byte size are
returned. -/
def BuildLightIndex (src : IndexInput) (now : Nat) : Except String Result :=
  match src with
  | .notArray => .error "want array"
  | .arr records =>
      match buildItems records with
      | .error e => .error e
      | .ok items =>
          let gz := encodeIndexGZ now items
          .ok { gzip := gz, generated := now, count := items.length,
                sha256Hex := sha256Hex gz, sizeBytes := gz.length }

/-- A concrete well-formed formula record. -/
def formulaExample : Formula :=
  { name := "foo", fullName := "homebrew/core/foo", aliases := ["f1", "f2"],
    oldNames := ["foo-old"], desc := "demo tool", tap := "homebrew/core",
    homepage := "https://example.com", license := "MIT", versionsStable := "1.2.3",
    deprecated := false, deprecationDate := "", deprecationReason := "",
    deprecationReplacementFormula := "", deprecationReplacementCask := "",
    disabled := false, disableDate := "", disableReason := "", kegOnly := false,
    bottleStableFiles := 1, dependencies := ["a", "b"], outdated := false,
    pinned := false }

end Index

namespace Store

/-- Catalog metadata, mirroring `store.Meta`. -/
structure Meta where
  etag : String
  generatedAt : Nat
  count : Nat
  sizeBytes : Nat
  sha256 : String
  upstreamETag : String
  lastSuccess : Nat
  lastChecked : Nat
deriving DecidableEq, Repr

/-- Go's zero value of `Meta`. -/
def Meta.zero : Meta :=
  { etag := "", generatedAt := 0, count := 0, sizeBytes := 0, sha256 := "",
    upstreamETag := "", lastSuccess := 0, lastChecked := 0 }

/-- The `store.FS` state: the two on-disk artifacts (index blob and
meta file, absent when never written) plus the in-memory hot fields. -/
structure FS where
  diskIndex : Option (List Nat)
  diskMeta : Option Meta
  hotData : Option (List Nat)
  hotETag : String
  hotGenAt : Nat
  hotSize : Nat
deriving DecidableEq, Repr

/-- Mirrors `FS.GetHot`: a snapshot of the hot fields, nil sentinel when
nothing is loaded. -/
def GetHot (s : FS) : Option (List Nat) × String × Nat × Nat :=
  match s.hotData with
  | none => (none, "", 0, 0)
  | some d => (some d, s.hotETag, s.hotGenAt, s.hotSize)

/-- Mirrors `FS.ReadMeta`; an absent file is the modelled read error. -/
def ReadMeta (s : FS) : Except String Meta :=
  match s.diskMeta with
  | none => .error "open meta.json: no such file"
  | some m => .ok m

/-- Mirrors `FS.WriteMeta`. -/
def WriteMeta (s : FS) (m : Meta) : FS :=
  { s with diskMeta := some m }

/-- Mirrors `FS.loadHotFromDisk`: no blob on disk is fine (no change); a
blob without readable metadata is an error; otherwise the hot fields
are reloaded from disk, the hot size being the blob's length. -/
def loadHotFromDisk (s : FS) : Except String FS :=
  match s.diskIndex with
  | none => .ok s
  | some data =>
      match s.diskMeta with
      | none => .error "read meta"
      | some m =>
          .ok { s with
                  hotData := some data
                  hotETag := m.etag
                  hotGenAt := m.generatedAt
                  hotSize := data.length }

/-- Mirrors `FS.WriteIndexGZ`: atomically replaces the blob, then the
metadata file, then reloads the hot cache from the just-written disk
state. The temp-file-and-rename discipline makes each replacement one
atomic step, which is how the model renders it; the disk itself always
accepts writes in the model. -/
def WriteIndexGZ (s : FS) (bytes : List Nat) (meta : Meta) : Except String FS :=
  loadHotFromDisk { s with diskIndex := some bytes, diskMeta := some meta }

/-- Mirrors `FS.OpenIndexGZ`: hot fast path, else the on-disk blob
enriched with best-effort metadata (zero meta when unreadable), sized by
the file's length. -/
def OpenIndexGZ (s : FS) : Except String (List Nat × String × Nat × Nat) :=
  match GetHot s with
  | (some d, e, g, sz) => .ok (d, e, g, sz)
  | (none, _, _, _) =>
      match s.diskIndex with
      | none => .error "open index: no such file"
      | some d =>
          let m :=
            match ReadMeta s with
            | .ok m => m
            | .error _ => Meta.zero
          .ok (d, m.etag, m.generatedAt, d.length)

/-- A store state that has never been written. -/
def fsEmpty : FS :=
  { diskIndex := none, diskMeta := none, hotData := none, hotETag := "",
    hotGenAt := 0, hotSize := 0 }

/-- A concrete metadata record used in round-trip instances. -/
def metaExample : Meta :=
  { etag := "sha256:abc", generatedAt := 5, count := 2, sizeBytes := 3,
    sha256 := "abc", upstreamETag := "W/xyz", lastSuccess := 10, lastChecked := 10 }

/-- The store state left by writing bytes `[1, 2, 3]` with
`metaExample` over the empty store. -/
def writtenStoreExample : FS :=
  { diskIndex := some [1, 2, 3], diskMeta := some metaExample,
    hotData := some [1, 2, 3], hotETag := "sha256:abc", hotGenAt := 5, hotSize := 3 }

end Store

namespace Scheduler

/-- Observable events of one `RefreshIndex` run: a fetch with the ETag
it sent, a bare metadata write (`updateMetaLastChecked`), or a full
index write (`persistBuild`, whose metadata carries `LastChecked`
too). -/
inductive SchedEvent where
  | fetch (etag : String)
  | metaWrite
  | indexWrite
deriving DecidableEq, Repr

/-- One HTTP fetch result, mirroring `service.FetchResult`: status
code, decoded body stream and response ETag. -/
structure FetchResult where
  status : Nat
  body : Index.IndexInput
  etag : String

/-- Mirrors `globalconfig.RefreshInterval` (24 hours, in seconds). -/
def RefreshInterval : Nat := 86400

/-- The scripted HTTP client: responses consumed in order by successive
`FetchWithETag` calls; an exhausted script acts as a transport error. -/
abbrev Client : Type := List (Except String FetchResult)

/-- Mirrors `updateMetaLastChecked`: reads the metadata, silently doing
nothing when the read fails, otherwise writes it back with
`LastChecked` set to the given instant. -/
def updateMetaLastChecked (s : Store.FS) (ts : Nat) : Store.FS × List SchedEvent :=
  match Store.ReadMeta s with
  | .error _ => (s, [])
  | .ok m => (Store.WriteMeta s { m with lastChecked := ts }, [.metaWrite])

/-- Mirrors `persistBuild`: builds the light index from the response
body and persists it with freshly derived metadata (`LastSuccess` and
`LastChecked` both `now`, the upstream ETag recorded); a build failure
aborts with nothing persisted. -/
def persistBuild (s : Store.FS) (res : FetchResult) (now : Nat) :
    Except String Unit × Store.FS × List SchedEvent :=
  match Index.BuildLightIndex res.body now with
  | .error e => (.error ("build index: " ++ e), s, [])
  | .ok build =>
      let newMeta : Store.Meta :=
        { etag := "sha256:" ++ build.sha256Hex
          generatedAt := build.generated
          count := build.count
          sizeBytes := build.sizeBytes
          sha256 := build.sha256Hex
          upstreamETag := res.etag
          lastSuccess := now
          lastChecked := now }
      match Store.WriteIndexGZ s build.gzip newMeta with
      | .error e => (.error ("write store: " ++ e), s, [])
      | .ok s2 => (.ok (), s2, [.indexWrite])

/-- The 24h gate of `RefreshIndex` (its lines 30-39): skip when a
catalog is present, the last touch (`max(LastChecked, LastSuccess)`) is
not the zero time, it is younger than the refresh interval, and the
caller did not force. -/
def freshSkip (present : Bool) (meta : Store.Meta) (refresh : Bool) (now : Nat) : Bool :=
  let last :=
    if meta.lastSuccess > meta.lastChecked then meta.lastSuccess else meta.lastChecked
  present && (last != 0) && decide (now - last < RefreshInterval) && !refresh

/-- Mirrors `RefreshIndex`: the 24h freshness gate over
`max(LastChecked, LastSuccess)`, the conditional fetch carrying the
stored upstream ETag, and the 304/200/other dispatch including the
dangling-metadata self-heal refetch with an empty ETag. Returns the
call result, the store state after the call and the event log. -/
def RefreshIndex (s : Store.FS) (client : Client) (refresh : Bool) (now : Nat) :
    Except String Unit × Store.FS × List SchedEvent :=
  let present := ((Store.GetHot s).1).isSome
  let meta :=
    match Store.ReadMeta s with
    | .ok m => m
    | .error _ => Store.Meta.zero
  if freshSkip present meta refresh now then
    (.ok (), s, [])
  else
    let prevETag := if present && (meta.upstreamETag != "") then meta.upstreamETag else ""
    match client with
    | [] =>
        let (s1, ev) := updateMetaLastChecked s now
        (.error "fetch: no response", s1, .fetch prevETag :: ev)
    | .error e :: _ =>
        let (s1, ev) := updateMetaLastChecked s now
        (.error ("fetch: " ++ e), s1, .fetch prevETag :: ev)
    | .ok res :: rest =>
        if res.status == 304 then
          let (s1, ev) := updateMetaLastChecked s now
          if present then (.ok (), s1, .fetch prevETag :: ev)
          else
            match rest with
            | [] =>
                (.error "refetch without etag: no response", s1,
                  (.fetch prevETag :: ev) ++ [.fetch ""])
            | .error e :: _ =>
                (.error ("refetch without etag: " ++ e), s1,
                  (.fetch prevETag :: ev) ++ [.fetch ""])
            | .ok res2 :: _ =>
                if res2.status != 200 then
                  (.error "unexpected status in refetch", s1,
                    (.fetch prevETag :: ev) ++ [.fetch ""])
                else
                  let (r2, s2, ev2) := persistBuild s1 res2 now
                  (r2, s2, (.fetch prevETag :: ev) ++ [.fetch ""] ++ ev2)
        else if res.status == 200 then
          let (r2, s2, ev2) := persistBuild s res now
          (r2, s2, .fetch prevETag :: ev2)
        else
          let (s1, ev) := updateMetaLastChecked s now
          (.error "unexpected status", s1, .fetch prevETag :: ev)

/-- Number of fetch calls recorded in an event log. -/
def fetchCount (log : List SchedEvent) : Nat :=
  log.countP fun e =>
    match e with
    | .fetch _ => true
    | _ => false

/-- Number of events that write the `LastChecked` metadata field: bare
metadata writes plus full index writes. -/
def lastCheckedWrites (log : List SchedEvent) : Nat :=
  log.countP fun e =>
    match e with
    | .fetch _ => false
    | _ => true

/-- The ETags sent by the fetches of an event log, in order. -/
def fetchETags (log : List SchedEvent) : List String :=
  log.filterMap fun e =>
    match e with
    | .fetch t => some t
    | _ => none

/-- A store state holding a fresh catalog: hot blob loaded and
metadata checked at instant 90000. -/
def freshStoreExample : Store.FS :=
  { diskIndex := some [1, 2, 3],
    diskMeta := some { Store.Meta.zero with lastChecked := 90000, etag := "e" },
    hotData := some [1, 2, 3], hotETag := "e", hotGenAt := 5, hotSize := 3 }

/-- A dangling store state: readable metadata with an upstream ETag but
no blob anywhere. -/
def danglingStoreExample : Store.FS :=
  { diskIndex := none,
    diskMeta := some { Store.Meta.zero with
                         lastChecked := 1
                         upstreamETag := "etag-dangling" },
    hotData := none, hotETag := "", hotGenAt := 0, hotSize := 0 }

/-- A store state with a hot catalog whose metadata was never touched
(zero timestamps), so the 24h gate does not skip. -/
def staleStoreExample : Store.FS :=
  { diskIndex := some [9],
    diskMeta := some { Store.Meta.zero with etag := "old" },
    hotData := some [9], hotETag := "old", hotGenAt := 3, hotSize := 1 }

/-- A 304 response. -/
def notModifiedResponse : FetchResult :=
  { status := 304, body := .arr [], etag := "etag-dangling" }

/-- A 200 response carrying an empty, well-formed catalog array. -/
def okEmptyResponse : FetchResult :=
  { status := 200, body := .arr [], etag := "etag-new" }

/-- A 200 response whose body is not a JSON array, so the build fails. -/
def okMalformedResponse : FetchResult :=
  { status := 200, body := .notArray, etag := "etag-bad" }

end Scheduler

end Keg

namespace Keg

namespace Brew

/-- C1: for every cache state and package name `p`, `GetOutdatedMap`
contains an entry for `p` exactly when `GetState p` finds a state with
`Installed` and `Outdated` both true, and that entry carries the same
`InstalledVersion` and `LatestVersion` as the state `GetState` returns. -/
theorem getOutdatedMap_iff_getState (c : UnifiedCache) (p : String) (info : PackageInfo) :
    GetOutdatedMap c p = some info ↔
      ((GetState c p).2 = true ∧ (GetState c p).1.installed = true ∧
        (GetState c p).1.outdated = true ∧
        info = { name := p, installedVersion := (GetState c p).1.installedVersion,
                 latestVersion := (GetState c p).1.latestVersion }) := by
  unfold GetOutdatedMap GetState
  cases h : c.packages p with
  | none => simp
  | some st =>
      by_cases ho : st.outdated = true <;> by_cases hi : st.installed = true <;>
        (simp [hi, ho]; try aesop)

/-- Applying one version record with a nonempty installed version keeps
the per-entry invariant. -/
theorem applyVersionInfo_preserves_inv (now : Nat)
    (pkgs : String → Option PackageState) (info : PackageInfo)
    (hp : PkgsInv pkgs) (hiv : info.installedVersion ≠ "") :
    PkgsInv (applyVersionInfo now pkgs info) := by
  intro name st h ho
  unfold applyVersionInfo at h
  by_cases hn : name = info.name
  · simp only [hn, if_pos rfl] at h
    cases h
    simpa [bne_iff_ne] using hiv
  · simp only [if_neg hn] at h
    exact hp name st h ho

/-- Folding version records that all carry a nonempty installed version
keeps the per-entry invariant. -/
theorem foldl_applyVersionInfo_preserves_inv (now : Nat) :
    ∀ (infos : List PackageInfo) (pkgs : String → Option PackageState),
      (∀ info ∈ infos, info.installedVersion ≠ "") → PkgsInv pkgs →
      PkgsInv (infos.foldl (applyVersionInfo now) pkgs) := by
  intro infos
  induction infos with
  | nil => intro pkgs _ hp; exact hp
  | cons info rest ih =>
      intro pkgs hall hp
      exact ih _ (fun i hi => hall i (List.mem_cons_of_mem _ hi))
        (applyVersionInfo_preserves_inv now pkgs info hp (hall info (List.mem_cons_self _ _)))

/-- Folding whole chunks whose successful answers all carry nonempty
installed versions keeps the per-entry invariant. -/
theorem foldl_applyChunk_preserves_inv (now : Nat) (env : VersionsEnv)
    (henv : ∀ chunk infos, env.fetch chunk = .ok infos →
      ∀ info ∈ infos, info.installedVersion ≠ "") :
    ∀ (chunks : List (List String)) (pkgs : String → Option PackageState),
      PkgsInv pkgs → PkgsInv (chunks.foldl (applyChunk now env) pkgs) := by
  intro chunks
  induction chunks with
  | nil => intro pkgs hp; exact hp
  | cons chunk rest ih =>
      intro pkgs hp
      apply ih
      unfold applyChunk
      cases hfetch : env.fetch chunk with
      | error e => exact hp
      | ok infos => exact foldl_applyVersionInfo_preserves_inv now infos pkgs (henv chunk infos hfetch) hp

/-- C2 counterexample: the claim fails as stated. From a state
satisfying the invariant (one installed outdated entry for `foo`),
`RefreshVersions` applied to a version query reporting an empty
installed version for `foo` clears `Installed` while the stale
`Outdated` flag survives, so the resulting entry violates
`Outdated=true → Installed=true`. -/
theorem refreshVersions_invariant_counterexample :
    OutdatedImpliesInstalled fooOutdatedCache ∧
      ¬ OutdatedImpliesInstalled
          (RefreshVersions fooOutdatedCache ["foo"] 10 fooGoneVersionsEnv) := by
  constructor
  · intro name st h _
    simp only [fooOutdatedCache] at h
    split at h
    · cases h; rfl
    · cases h
  · intro hinv
    have hlook : (RefreshVersions fooOutdatedCache ["foo"] 10 fooGoneVersionsEnv).packages "foo"
        = some { installed := false, installedVersion := "", latestVersion := "2.0",
                 outdated := true, fetchedAt := 10 } := by
      simp [RefreshVersions, fooOutdatedCache, fooGoneVersionsEnv, dedupeFirst,
        chunkStrings, chunkGo, maxBatchSize, applyChunk, applyVersionInfo,
        PackageState.zero]
    have := hinv "foo" _ hlook rfl
    simp at this

/-- C2 amended: `Refresh`, `Invalidate`, `MarkInstalled`,
`MarkUninstalled` and `MarkUpgraded` preserve the per-entry invariant
`Outdated=true → Installed=true` from any state satisfying it;
`RefreshVersions` preserves it provided every record returned by the
version query carries a nonempty installed version (a record with an
empty installed version for a previously outdated entry breaks it). -/
theorem mutators_preserve_outdated_invariant (c : UnifiedCache)
    (hc : OutdatedImpliesInstalled c) :
    (∀ force now env c2, Refresh c force now env = .ok c2 →
      OutdatedImpliesInstalled c2) ∧
    (∀ names, OutdatedImpliesInstalled (Invalidate c names)) ∧
    (∀ name version now, OutdatedImpliesInstalled (MarkInstalled c name version now)) ∧
    (∀ name, OutdatedImpliesInstalled (MarkUninstalled c name)) ∧
    (∀ name version now, OutdatedImpliesInstalled (MarkUpgraded c name version now)) ∧
    (∀ names now env,
      (∀ chunk infos, env.fetch chunk = .ok infos →
        ∀ info ∈ infos, info.installedVersion ≠ "") →
      OutdatedImpliesInstalled (RefreshVersions c names now env)) := by
  refine ⟨?_, ?_, ?_, ?_, ?_, ?_⟩
  · intro force now env c2 h name st hlook ho
    unfold Refresh at h
    split at h
    · cases h; exact hc name st hlook ho
    · cases henv : env.installedResult with
      | error e => rw [henv] at h; cases h
      | ok installed =>
          rw [henv] at h
          cases h
          simp only at hlook
          split at hlook
          · cases hlook
            unfold refreshedState
            split <;> (try split) <;> rfl
          · cases hlook
  · intro names name st hlook ho
    unfold Invalidate at hlook
    split at hlook
    · exact hc name st hlook ho
    · simp only at hlook
      split at hlook
      · cases hlook
      · exact hc name st hlook ho
  · intro pname version now name st hlook ho
    unfold MarkInstalled at hlook
    simp only at hlook
    split at hlook
    · cases hlook; rfl
    · exact hc name st hlook ho
  · intro pname name st hlook ho
    unfold MarkUninstalled at hlook
    simp only at hlook
    split at hlook
    · cases hlook
    · exact hc name st hlook ho
  · intro pname version now name st hlook ho
    unfold MarkUpgraded at hlook
    simp only at hlook
    split at hlook
    · cases hlook; cases ho
    · exact hc name st hlook ho
  · intro names now env henv
    unfold RefreshVersions
    split
    · exact hc
    · exact foldl_applyChunk_preserves_inv now env henv _ _ hc

/-- C2 amended witness: the invariant survives a concrete `MarkUpgraded`
and a concrete `RefreshVersions` whose answers carry nonempty installed
versions, starting from the empty cache. -/
theorem mutators_preserve_outdated_invariant_witness :
    OutdatedImpliesInstalled (MarkUpgraded emptyCache "foo" "2.0" 7) :=
  (mutators_preserve_outdated_invariant emptyCache
    (by intro name st h ho; simp [emptyCache] at h)).2.2.2.2.1 "foo" "2.0" 7

/-- C7 counterexample: the claim fails as stated. On a stale cache a
`GetState` call answers not-found straight from the snapshot, even
though the internal refresh the claim attributes to it would have found
the package; only `IsInstalled` performs that refresh. -/
theorem getState_no_refresh_counterexample :
    needsRefresh staleEmptyCache 10 = true ∧
    (GetState staleEmptyCache "foo").2 = false ∧
    (GetState (refreshOrKeep staleEmptyCache 10 fooInstalledEnv) "foo").2 = true ∧
    (IsInstalled staleEmptyCache "foo" 10 fooInstalledEnv).1 = true := by
  refine ⟨rfl, rfl, ?_, ?_⟩ <;>
    simp [GetState, IsInstalled, refreshOrKeep, Refresh, staleEmptyCache,
      fooInstalledEnv, needsRefresh, buildOutdatedMap, refreshedState,
      GetInstalledSet]

/-- C7 amended: when the snapshot is stale it is `IsInstalled`, not
`GetState`, that triggers the internal refresh before answering;
`GetState` answers purely from the current snapshot; neither operation
can return an error, and when the installed query fails `IsInstalled`
degrades to the existing snapshot's answer. -/
theorem isInstalled_lazy_refresh_getState_pure (c : UnifiedCache) (name : String)
    (now : Nat) (env : RefreshEnv) (hstale : needsRefresh c now = true) :
    IsInstalled c name now env =
      (GetInstalledSet (refreshOrKeep c now env) name, refreshOrKeep c now env) ∧
    (∀ e, env.installedResult = .error e →
      IsInstalled c name now env = (GetInstalledSet c name, c)) ∧
    GetState c name =
      ((c.packages name).getD PackageState.zero, (c.packages name).isSome) := by
  refine ⟨?_, ?_, ?_⟩
  · unfold IsInstalled GetInstalledSet
    rw [hstale]
    simp
  · intro e he
    have hkeep : refreshOrKeep c now env = c := by
      unfold refreshOrKeep Refresh
      rw [hstale, he]
      simp
    unfold IsInstalled GetInstalledSet
    rw [hstale, hkeep]
    simp
  · unfold GetState
    cases c.packages name <;> rfl

/-- C7 amended witness: the lazy refresh of `IsInstalled` observed on a
concrete stale cache. -/
theorem isInstalled_lazy_refresh_getState_pure_witness :
    IsInstalled staleEmptyCache "bar" 10 fooInstalledEnv =
      (GetInstalledSet (refreshOrKeep staleEmptyCache 10 fooInstalledEnv) "bar",
        refreshOrKeep staleEmptyCache 10 fooInstalledEnv) :=
  (isInstalled_lazy_refresh_getState_pure staleEmptyCache "bar" 10 fooInstalledEnv rfl).1

/-- C8: on a cache that needs refreshing, a failed outdated query is
non-fatal: `Refresh` behaves exactly as if the outdated query had
returned an empty payload, succeeds, and every installed package ends
up `Installed=true, Outdated=false` with version fields preserved from
the previous snapshot when present (empty otherwise); packages not in
the installed list are dropped. -/
theorem refresh_outdated_failure_nonfatal (c : UnifiedCache) (force : Bool)
    (now : Nat) (env : RefreshEnv) (l : List String) (e : String)
    (hneed : force = true ∨ needsRefresh c now = true)
    (hi : env.installedResult = .ok l)
    (ho : env.outdatedResult = .error e) :
    Refresh c force now env =
      Refresh c force now
        { installedResult := .ok l, outdatedResult := .ok (BrewOutdatedJSON.mk []) } ∧
    ∃ c2, Refresh c force now env = .ok c2 ∧
      (∀ name, name ∈ l →
        ∃ st, c2.packages name = some st ∧ st.installed = true ∧ st.outdated = false ∧
          (∀ old, c.packages name = some old →
            st.installedVersion = old.installedVersion ∧
            st.latestVersion = old.latestVersion) ∧
          (c.packages name = none →
            st.installedVersion = "" ∧ st.latestVersion = "")) ∧
      (∀ name, name ∉ l → c2.packages name = none) := by
  have hguard : (!force && !needsRefresh c now) = false := by
    rcases hneed with h | h <;> simp [h]
  have hrun : Refresh c force now env =
      .ok { c with
            lastUpdated := now,
            packages := fun name =>
              if name ∈ l then
                some (refreshedState c (buildOutdatedMap []) now name)
              else none } := by
    unfold Refresh
    rw [hguard, hi, ho]
    simp
  refine ⟨?_, ?_⟩
  · rw [hrun]
    unfold Refresh
    rw [hguard]
    simp
  · refine ⟨_, hrun, ?_, ?_⟩
    · intro name hmem
      refine ⟨refreshedState c (buildOutdatedMap []) now name, by simp [hmem], ?_, ?_, ?_, ?_⟩
      · unfold refreshedState buildOutdatedMap
        simp only [List.foldl_nil]
        cases c.packages name <;> rfl
      · unfold refreshedState buildOutdatedMap
        simp only [List.foldl_nil]
        cases c.packages name <;> rfl
      · intro old hold
        unfold refreshedState buildOutdatedMap
        simp only [List.foldl_nil, hold]
        exact ⟨trivial, trivial⟩
      · intro hnone
        unfold refreshedState buildOutdatedMap
        simp only [List.foldl_nil, hnone]
        exact ⟨trivial, trivial⟩
    · intro name hnot
      simp [hnot]

/-- C8 witness: a concrete stale cache refreshed under a failing
outdated query still succeeds with `foo` installed and not outdated. -/
theorem refresh_outdated_failure_nonfatal_witness :
    (true = true ∨ needsRefresh staleEmptyCache 10 = true) ∧
    ∃ c2, Refresh staleEmptyCache true 10 fooInstalledOutdatedFailEnv = .ok c2 ∧
      (∀ name, name ∈ ["foo"] →
        ∃ st, c2.packages name = some st ∧ st.installed = true ∧ st.outdated = false ∧
          (∀ old, staleEmptyCache.packages name = some old →
            st.installedVersion = old.installedVersion ∧
            st.latestVersion = old.latestVersion) ∧
          (staleEmptyCache.packages name = none →
            st.installedVersion = "" ∧ st.latestVersion = "")) ∧
      (∀ name, name ∉ ["foo"] → c2.packages name = none) :=
  ⟨Or.inl rfl,
    (refresh_outdated_failure_nonfatal staleEmptyCache true 10
      fooInstalledOutdatedFailEnv ["foo"] "brew outdated exploded"
      (Or.inl rfl) rfl rfl).2⟩

/-- C10: for a package absent from the cache, `MarkUpgraded` records the
version pair with `Outdated=false` but — unlike `MarkInstalled` — never
sets the `Installed` flag, so the upgraded-but-untracked package is
reported not installed by `GetInstalledSet` and by `IsInstalled` on the
still-fresh cache. -/
theorem markUpgraded_absent_not_installed (c : UnifiedCache) (name v : String)
    (now now2 : Nat) (env : RefreshEnv)
    (habs : c.packages name = none)
    (hfresh : needsRefresh (MarkUpgraded c name v now) now2 = false) :
    (MarkUpgraded c name v now).packages name =
      some { installed := false, installedVersion := v, latestVersion := v,
             outdated := false, fetchedAt := now } ∧
    GetInstalledSet (MarkUpgraded c name v now) name = false ∧
    (IsInstalled (MarkUpgraded c name v now) name now2 env).1 = false ∧
    (MarkInstalled c name v now).packages name =
      some { installed := true, installedVersion := v, latestVersion := v,
             outdated := false, fetchedAt := now } := by
  have h1 : (MarkUpgraded c name v now).packages name =
      some { installed := false, installedVersion := v, latestVersion := v,
             outdated := false, fetchedAt := now } := by
    unfold MarkUpgraded
    simp [habs, PackageState.zero]
  refine ⟨h1, ?_, ?_, ?_⟩
  · unfold GetInstalledSet
    rw [h1]
  · unfold IsInstalled
    rw [hfresh]
    simp only [Bool.false_eq_true, if_false]
    rw [h1]
  · unfold MarkInstalled
    simp

/-- C10 witness: marking an untracked package upgraded on the concrete
empty cache leaves it reported as not installed. -/
theorem markUpgraded_absent_not_installed_witness :
    (MarkUpgraded emptyCache "baz" "2.0" 7).packages "baz" =
      some { installed := false, installedVersion := "2.0", latestVersion := "2.0",
             outdated := false, fetchedAt := 7 } ∧
    GetInstalledSet (MarkUpgraded emptyCache "baz" "2.0" 7) "baz" = false ∧
    (IsInstalled (MarkUpgraded emptyCache "baz" "2.0" 7) "baz" 100 fooInstalledEnv).1 = false ∧
    (MarkInstalled emptyCache "baz" "2.0" 7).packages "baz" =
      some { installed := true, installedVersion := "2.0", latestVersion := "2.0",
             outdated := false, fetchedAt := 7 } :=
  markUpgraded_absent_not_installed emptyCache "baz" "2.0" 7 100 fooInstalledEnv rfl rfl

end Brew

namespace Store

/-- C3: after a successful `WriteIndexGZ` of bytes `B` with metadata
`meta`, `GetHot` returns exactly `B` with `meta`'s ETag and GeneratedAt
and size `len B`, and `OpenIndexGZ` serves those same bytes with the
same ETag, GeneratedAt and size. The write is a single atomic step in
the model, mirroring the temp-file-plus-rename discipline, so no state
between the successful write and these reads reflects the previous
content. -/
theorem writeIndexGZ_roundtrip (s s2 : FS) (bytes : List Nat) (meta : Meta)
    (h : WriteIndexGZ s bytes meta = .ok s2) :
    GetHot s2 = (some bytes, meta.etag, meta.generatedAt, bytes.length) ∧
    OpenIndexGZ s2 = .ok (bytes, meta.etag, meta.generatedAt, bytes.length) := by
  unfold WriteIndexGZ loadHotFromDisk at h
  simp only at h
  cases h
  exact ⟨rfl, rfl⟩

/-- C3 witness: the round trip observed for a concrete write of
`[1, 2, 3]` with `metaExample` over the empty store. -/
theorem writeIndexGZ_roundtrip_witness :
    GetHot writtenStoreExample =
      (some [1, 2, 3], metaExample.etag, metaExample.generatedAt, 3) ∧
    OpenIndexGZ writtenStoreExample =
      .ok ([1, 2, 3], metaExample.etag, metaExample.generatedAt, 3) :=
  writeIndexGZ_roundtrip fsEmpty writtenStoreExample [1, 2, 3] metaExample rfl

end Store

namespace Index

/-- A malformed record anywhere in the array makes the decoding loop
fail. -/
theorem buildItems_error_of_none (records : List (Option Formula))
    (h : none ∈ records) : ∃ e, buildItems records = .error e := by
  induction records with
  | nil => cases h
  | cons r rest ih =>
      cases r with
      | none => exact ⟨"decode", rfl⟩
      | some f =>
          rcases List.mem_cons.mp h with h1 | h1
          · cases h1
          · obtain ⟨e, he⟩ := ih h1
            refine ⟨e, ?_⟩
            unfold buildItems
            rw [he]

/-- C9: `BuildLightIndex` is strict — a stream whose top-level value is
not an array fails with `want array`, and an array containing any
record that fails to decode aborts the whole build with an error that
carries no result payload, so no partial catalog exists for the records
decoded before the failure. -/
theorem buildLightIndex_strict (now : Nat) (records : List (Option Formula))
    (h : none ∈ records) :
    BuildLightIndex .notArray now = .error "want array" ∧
    ∃ e, BuildLightIndex (.arr records) now = .error e := by
  refine ⟨rfl, ?_⟩
  obtain ⟨e, he⟩ := buildItems_error_of_none records h
  refine ⟨e, ?_⟩
  simp [BuildLightIndex, he]

/-- C9 witness: a concrete array whose first record decodes and whose
second is malformed aborts the build. -/
theorem buildLightIndex_strict_witness :
    BuildLightIndex .notArray 0 = .error "want array" ∧
    ∃ e, BuildLightIndex (.arr [some formulaExample, none]) 0 = .error e :=
  buildLightIndex_strict 0 [some formulaExample, none] (by simp)

end Index

namespace Scheduler

/-- C4: with a catalog present, metadata whose last touch
(`max(LastChecked, LastSuccess)`) is younger than the 24h refresh
interval, and `force=false`, `RefreshIndex` returns success, performs
zero fetches and leaves the store (catalog and metadata) unchanged. The
hypothesis `RefreshInterval ≤ now` states that the wall clock lies at
least one interval past the epoch, which is how the code's zero-time
sentinel check is subsumed. -/
theorem refreshIndex_fresh_skip (s : Store.FS) (client : Client) (now : Nat)
    (m : Store.Meta)
    (hpresent : s.hotData.isSome = true)
    (hmeta : s.diskMeta = some m)
    (hnow : RefreshInterval ≤ now)
    (hfresh : now - max m.lastChecked m.lastSuccess < RefreshInterval) :
    RefreshIndex s client false now = (.ok (), s, []) := by
  obtain ⟨d, hd⟩ := Option.isSome_iff_exists.mp hpresent
  have hguard : freshSkip true m false now = true := by
    unfold freshSkip
    by_cases hls : m.lastSuccess > m.lastChecked <;>
      simp only [hls, if_true, if_false, Bool.true_and, Bool.not_false, Bool.and_true,
        bne_iff_ne, ne_eq, decide_eq_true_eq, Bool.and_eq_true] <;>
      exact ⟨by omega, by omega⟩
  unfold RefreshIndex
  simp [Store.GetHot, Store.ReadMeta, hd, hmeta, hguard]

/-- C4 witness: a concrete fresh store skips without touching anything. -/
theorem refreshIndex_fresh_skip_witness :
    RefreshIndex freshStoreExample [] false 100000 =
      (.ok (), freshStoreExample, []) :=
  refreshIndex_fresh_skip freshStoreExample [] 100000
    { Store.Meta.zero with lastChecked := 90000, etag := "e" }
    rfl rfl (by decide) (by decide)

/-- C5: when `RefreshIndex` holds no hot catalog blob and the first
fetch returns 304, it performs exactly one additional fetch carrying an
empty ETag (two fetches in total, the first also unconditional since no
catalog is present): if the retry returns 200 and the body builds, the
built catalog is persisted to disk and hot cache and the call succeeds;
on any non-200 retry status (another 304 included) the call fails with
no further fetch and nothing persisted. -/
theorem refreshIndex_dangling_304_selfheal (s : Store.FS) (res res2 : FetchResult)
    (rest : Client) (now : Nat) (refresh : Bool)
    (hnohot : s.hotData = none) (h304 : res.status = 304) :
    (∀ build, res2.status = 200 → Index.BuildLightIndex res2.body now = .ok build →
      ∃ s2 log,
        RefreshIndex s (.ok res :: .ok res2 :: rest) refresh now = (.ok (), s2, log) ∧
        fetchETags log = ["", ""] ∧
        s2.diskIndex = some build.gzip ∧ s2.hotData = some build.gzip) ∧
    (res2.status ≠ 200 →
      ∃ e s2 log,
        RefreshIndex s (.ok res :: .ok res2 :: rest) refresh now = (.error e, s2, log) ∧
        fetchETags log = ["", ""] ∧ SchedEvent.indexWrite ∉ log ∧
        s2.diskIndex = s.diskIndex ∧ s2.hotData = s.hotData) := by
  have hpres : ((Store.GetHot s).1).isSome = false := by
    unfold Store.GetHot
    rw [hnohot]
    rfl
  constructor
  · intro build h200 hbuild
    unfold RefreshIndex updateMetaLastChecked persistBuild
    cases hdm : s.diskMeta with
    | none =>
        simp only [Store.GetHot, Store.ReadMeta, Store.WriteMeta, Store.WriteIndexGZ,
          Store.loadHotFromDisk, hnohot, hdm, h304, h200, hbuild, freshSkip]
        simp only [Bool.false_and, Bool.and_false, Bool.false_eq_true, if_false,
          Option.isSome_none]
        exact ⟨_, _, rfl, by simp [fetchETags], rfl, rfl⟩
    | some m =>
        simp only [Store.GetHot, Store.ReadMeta, Store.WriteMeta, Store.WriteIndexGZ,
          Store.loadHotFromDisk, hnohot, hdm, h304, h200, hbuild, freshSkip]
        simp only [Bool.false_and, Bool.and_false, Bool.false_eq_true, if_false,
          Option.isSome_none]
        exact ⟨_, _, rfl, by simp [fetchETags], rfl, rfl⟩
  · intro hne
    have hne2 : (res2.status != 200) = true := by simpa [bne_iff_ne] using hne
    unfold RefreshIndex updateMetaLastChecked
    cases hdm : s.diskMeta with
    | none =>
        simp only [Store.GetHot, Store.ReadMeta, Store.WriteMeta, hnohot, hdm, h304,
          hne2, freshSkip]
        simp only [Bool.false_and, Bool.and_false, Bool.false_eq_true, if_false,
          Option.isSome_none]
        exact ⟨_, _, _, rfl, by simp [fetchETags], by simp, rfl, hnohot⟩
    | some m =>
        simp only [Store.GetHot, Store.ReadMeta, Store.WriteMeta, hnohot, hdm, h304,
          hne2, freshSkip]
        simp only [Bool.false_and, Bool.and_false, Bool.false_eq_true, if_false,
          Option.isSome_none]
        exact ⟨_, _, _, rfl, by simp [fetchETags], by simp, rfl, rfl⟩

/-- C5 witness: the self-heal observed on a concrete dangling store,
with a 304 then a well-formed 200. -/
theorem refreshIndex_dangling_304_selfheal_witness :
    ∃ s2 log,
      RefreshIndex danglingStoreExample
          [.ok notModifiedResponse, .ok okEmptyResponse] false 100000 =
        (.ok (), s2, log) ∧
      fetchETags log = ["", ""] ∧
      s2.diskIndex = some (Index.encodeIndexGZ 100000 []) ∧
      s2.hotData = some (Index.encodeIndexGZ 100000 []) :=
  (refreshIndex_dangling_304_selfheal danglingStoreExample notModifiedResponse
      okEmptyResponse [] 100000 false rfl rfl).1
    { gzip := Index.encodeIndexGZ 100000 [], generated := 100000, count := 0,
      sha256Hex := Index.sha256Hex (Index.encodeIndexGZ 100000 []),
      sizeBytes := (Index.encodeIndexGZ 100000 []).length }
    rfl rfl

/-- C6 counterexample: the claim fails as stated. On a concrete store
with readable metadata, a run whose single fetch returns 200 with a
malformed body performs one fetch yet writes `LastChecked` zero
times — `persistBuild` aborts before any write and no touch happens on
that path. -/
theorem refreshIndex_lastChecked_counterexample :
    fetchCount
        (RefreshIndex staleStoreExample [.ok okMalformedResponse] false 100000).2.2 = 1 ∧
    lastCheckedWrites
        (RefreshIndex staleStoreExample [.ok okMalformedResponse] false 100000).2.2 = 0 := by
  constructor <;> rfl

/-- C6 amended: the fresh-skip path performs no fetch and no metadata
write (a run with zero fetches is exactly that skip, returning success
with the store untouched). With readable metadata, a run performing at
least one fetch writes `LastChecked` exactly once, with exactly the two
exceptions the code forces: the dangling-304 self-heal ending in a
successful persist writes it twice (the 304 touch plus the persisted
metadata), and a direct 200 whose body fails to build writes it zero
times, leaving the store untouched. -/
theorem refreshIndex_lastChecked_write_discipline (s : Store.FS) (client : Client)
    (refresh : Bool) (now : Nat) (m : Store.Meta) (hm : s.diskMeta = some m) :
    (fetchCount (RefreshIndex s client refresh now).2.2 = 0 →
      RefreshIndex s client refresh now = (.ok (), s, [])) ∧
    (1 ≤ fetchCount (RefreshIndex s client refresh now).2.2 →
      (lastCheckedWrites (RefreshIndex s client refresh now).2.2 = 1 ∨
        (lastCheckedWrites (RefreshIndex s client refresh now).2.2 = 2 ∧
          (RefreshIndex s client refresh now).1 = .ok () ∧
          fetchCount (RefreshIndex s client refresh now).2.2 = 2 ∧
          s.hotData = none) ∨
        (lastCheckedWrites (RefreshIndex s client refresh now).2.2 = 0 ∧
          (∃ e, (RefreshIndex s client refresh now).1 = .error e) ∧
          fetchCount (RefreshIndex s client refresh now).2.2 = 1 ∧
          (RefreshIndex s client refresh now).2.1 = s))) := by
  have hevm : updateMetaLastChecked s now =
      (Store.WriteMeta s { m with lastChecked := now }, [.metaWrite]) := by
    unfold updateMetaLastChecked Store.ReadMeta
    rw [hm]
  by_cases hg : freshSkip (((Store.GetHot s).1).isSome) m refresh now = true
  · have hrun : RefreshIndex s client refresh now = (.ok (), s, []) := by
      unfold RefreshIndex
      simp [Store.ReadMeta, hm, hg]
    rw [hrun]
    exact ⟨fun _ => rfl, fun h1 => by simp [fetchCount] at h1⟩
  · rw [Bool.not_eq_true] at hg
    cases client with
    | nil =>
        have hfc : fetchCount (RefreshIndex s [] refresh now).2.2 = 1 := by
          unfold RefreshIndex
          simp [Store.ReadMeta, hm, hg, hevm, fetchCount]
        have hlc : lastCheckedWrites (RefreshIndex s [] refresh now).2.2 = 1 := by
          unfold RefreshIndex
          simp [Store.ReadMeta, hm, hg, hevm, lastCheckedWrites]
        exact ⟨fun h0 => by omega, fun _ => Or.inl hlc⟩
    | cons first rest1 =>
        cases first with
        | error e =>
            have hfc : fetchCount
                (RefreshIndex s (.error e :: rest1) refresh now).2.2 = 1 := by
              unfold RefreshIndex
              simp [Store.ReadMeta, hm, hg, hevm, fetchCount]
            have hlc : lastCheckedWrites
                (RefreshIndex s (.error e :: rest1) refresh now).2.2 = 1 := by
              unfold RefreshIndex
              simp [Store.ReadMeta, hm, hg, hevm, lastCheckedWrites]
            exact ⟨fun h0 => by omega, fun _ => Or.inl hlc⟩
        | ok res =>
            cases h304 : (res.status == 304) with
            | true =>
                cases hp : s.hotData with
                | some d =>
                    have hpres : ((Store.GetHot s).1).isSome = true := by
                      unfold Store.GetHot
                      rw [hp]
                      rfl
                    have hg2 : freshSkip true m refresh now = false := hpres ▸ hg
                    have hfc : fetchCount
                        (RefreshIndex s (.ok res :: rest1) refresh now).2.2 = 1 := by
                      unfold RefreshIndex
                      simp [Store.GetHot, Store.ReadMeta, hm, hg2, hevm, hp, h304,
                        fetchCount]
                    have hlc : lastCheckedWrites
                        (RefreshIndex s (.ok res :: rest1) refresh now).2.2 = 1 := by
                      unfold RefreshIndex
                      simp [Store.GetHot, Store.ReadMeta, hm, hg2, hevm, hp, h304,
                        lastCheckedWrites]
                    exact ⟨fun h0 => by omega, fun _ => Or.inl hlc⟩
                | none =>
                    have hgf : freshSkip false m refresh now = false := by
                      simp [freshSkip]
                    cases rest1 with
                    | nil =>
                        have hfc : fetchCount
                            (RefreshIndex s [.ok res] refresh now).2.2 = 2 := by
                          unfold RefreshIndex
                          simp [Store.GetHot, Store.ReadMeta, hm, hgf, hevm, hp, h304,
                            fetchCount]
                        have hlc : lastCheckedWrites
                            (RefreshIndex s [.ok res] refresh now).2.2 = 1 := by
                          unfold RefreshIndex
                          simp [Store.GetHot, Store.ReadMeta, hm, hgf, hevm, hp, h304,
                            lastCheckedWrites]
                        exact ⟨fun h0 => by omega, fun _ => Or.inl hlc⟩
                    | cons second rest2 =>
                        cases second with
                        | error e2 =>
                            have hfc : fetchCount (RefreshIndex s
                                (.ok res :: .error e2 :: rest2) refresh now).2.2 = 2 := by
                              unfold RefreshIndex
                              simp [Store.GetHot, Store.ReadMeta, hm, hgf, hevm, hp,
                                h304, fetchCount]
                            have hlc : lastCheckedWrites (RefreshIndex s
                                (.ok res :: .error e2 :: rest2) refresh now).2.2 = 1 := by
                              unfold RefreshIndex
                              simp [Store.GetHot, Store.ReadMeta, hm, hgf, hevm, hp,
                                h304, lastCheckedWrites]
                            exact ⟨fun h0 => by omega, fun _ => Or.inl hlc⟩
                        | ok res2 =>
                            cases h200b : (res2.status != 200) with
                            | true =>
                                have hfc : fetchCount (RefreshIndex s
                                    (.ok res :: .ok res2 :: rest2) refresh now).2.2
                                    = 2 := by
                                  unfold RefreshIndex
                                  simp [Store.GetHot, Store.ReadMeta, hm, hgf, hevm,
                                    hp, h304, h200b, fetchCount]
                                have hlc : lastCheckedWrites (RefreshIndex s
                                    (.ok res :: .ok res2 :: rest2) refresh now).2.2
                                    = 1 := by
                                  unfold RefreshIndex
                                  simp [Store.GetHot, Store.ReadMeta, hm, hgf, hevm,
                                    hp, h304, h200b, lastCheckedWrites]
                                exact ⟨fun h0 => by omega, fun _ => Or.inl hlc⟩
                            | false =>
                                cases hb : Index.BuildLightIndex res2.body now with
                                | error e3 =>
                                    have hfc : fetchCount (RefreshIndex s
                                        (.ok res :: .ok res2 :: rest2) refresh now).2.2
                                        = 2 := by
                                      unfold RefreshIndex persistBuild
                                      simp [Store.GetHot, Store.ReadMeta, hm, hgf,
                                        hevm, hp, h304, h200b, hb, fetchCount]
                                    have hlc : lastCheckedWrites (RefreshIndex s
                                        (.ok res :: .ok res2 :: rest2) refresh now).2.2
                                        = 1 := by
                                      unfold RefreshIndex persistBuild
                                      simp [Store.GetHot, Store.ReadMeta, hm, hgf,
                                        hevm, hp, h304, h200b, hb, lastCheckedWrites]
                                    exact ⟨fun h0 => by omega, fun _ => Or.inl hlc⟩
                                | ok build =>
                                    have hfc : fetchCount (RefreshIndex s
                                        (.ok res :: .ok res2 :: rest2) refresh now).2.2
                                        = 2 := by
                                      unfold RefreshIndex persistBuild
                                      simp [Store.GetHot, Store.ReadMeta, hm, hgf,
                                        hevm, hp, h304, h200b, hb, fetchCount,
                                        Store.WriteIndexGZ, Store.loadHotFromDisk,
                                        Store.WriteMeta]
                                    have hlc : lastCheckedWrites (RefreshIndex s
                                        (.ok res :: .ok res2 :: rest2) refresh now).2.2
                                        = 2 := by
                                      unfold RefreshIndex persistBuild
                                      simp [Store.GetHot, Store.ReadMeta, hm, hgf,
                                        hevm, hp, h304, h200b, hb, lastCheckedWrites,
                                        Store.WriteIndexGZ, Store.loadHotFromDisk,
                                        Store.WriteMeta]
                                    have hres : (RefreshIndex s
                                        (.ok res :: .ok res2 :: rest2) refresh now).1
                                        = .ok () := by
                                      unfold RefreshIndex persistBuild
                                      simp [Store.GetHot, Store.ReadMeta, hm, hgf,
                                        hevm, hp, h304, h200b, hb,
                                        Store.WriteIndexGZ, Store.loadHotFromDisk,
                                        Store.WriteMeta]
                                    exact ⟨fun h0 => by omega,
                                      fun _ => Or.inr (Or.inl ⟨hlc, hres, hfc, rfl⟩)⟩
            | false =>
                cases h200 : (res.status == 200) with
                | true =>
                    cases hb : Index.BuildLightIndex res.body now with
                    | error e3 =>
                        have hfc : fetchCount
                            (RefreshIndex s (.ok res :: rest1) refresh now).2.2
                            = 1 := by
                          unfold RefreshIndex persistBuild
                          simp [Store.ReadMeta, hm, hg, h304, h200, hb, fetchCount]
                        have hlc : lastCheckedWrites
                            (RefreshIndex s (.ok res :: rest1) refresh now).2.2
                            = 0 := by
                          unfold RefreshIndex persistBuild
                          simp [Store.ReadMeta, hm, hg, h304, h200, hb,
                            lastCheckedWrites]
                        have hres : (RefreshIndex s (.ok res :: rest1) refresh now).1
                            = .error ("build index: " ++ e3) := by
                          unfold RefreshIndex persistBuild
                          simp [Store.ReadMeta, hm, hg, h304, h200, hb]
                        have hst : (RefreshIndex s (.ok res :: rest1) refresh now).2.1
                            = s := by
                          unfold RefreshIndex persistBuild
                          simp [Store.ReadMeta, hm, hg, h304, h200, hb]
                        exact ⟨fun h0 => by omega,
                          fun _ => Or.inr (Or.inr ⟨hlc, ⟨_, hres⟩, hfc, hst⟩)⟩
                    | ok build =>
                        have hfc : fetchCount
                            (RefreshIndex s (.ok res :: rest1) refresh now).2.2
                            = 1 := by
                          unfold RefreshIndex persistBuild
                          simp [Store.ReadMeta, hm, hg, h304, h200, hb, fetchCount,
                            Store.WriteIndexGZ, Store.loadHotFromDisk]
                        have hlc : lastCheckedWrites
                            (RefreshIndex s (.ok res :: rest1) refresh now).2.2
                            = 1 := by
                          unfold RefreshIndex persistBuild
                          simp [Store.ReadMeta, hm, hg, h304, h200, hb,
                            lastCheckedWrites, Store.WriteIndexGZ,
                            Store.loadHotFromDisk]
                        exact ⟨fun h0 => by omega, fun _ => Or.inl hlc⟩
                | false =>
                    have hfc : fetchCount
                        (RefreshIndex s (.ok res :: rest1) refresh now).2.2 = 1 := by
                      unfold RefreshIndex
                      simp [Store.ReadMeta, hm, hg, hevm, h304, h200, fetchCount]
                    have hlc : lastCheckedWrites
                        (RefreshIndex s (.ok res :: rest1) refresh now).2.2 = 1 := by
                      unfold RefreshIndex
                      simp [Store.ReadMeta, hm, hg, hevm, h304, h200,
                        lastCheckedWrites]
                    exact ⟨fun h0 => by omega, fun _ => Or.inl hlc⟩

/-- C6 amended witness: a concrete direct-200 run that builds and
persists writes `LastChecked` exactly once. -/
theorem refreshIndex_lastChecked_write_discipline_witness :
    lastCheckedWrites
        (RefreshIndex staleStoreExample [.ok okEmptyResponse] false 100000).2.2 = 1 := by
  have h := (refreshIndex_lastChecked_write_discipline staleStoreExample
      [.ok okEmptyResponse] false 100000 { Store.Meta.zero with etag := "old" } rfl).2
      (by constructor)
  have hres : (RefreshIndex staleStoreExample [.ok okEmptyResponse] false 100000).1
      = .ok () := rfl
  rcases h with h | h | h
  · exact h
  · exact absurd h.2.2.2 (by simp [staleStoreExample])
  · rcases h.2.1 with ⟨e, he⟩
    rw [hres] at he
    cases he

end Scheduler

end Keg
